import Mathlib

/-!
Verification of the auditgh orchestration layer (`template_repos.py`,
`scan_gitleaks.py`): findings aggregation (`get_top_vulnerabilities`),
control checkpoints (`check_control` / `process_repo`), repository listing
(`get_all_repos`), rate-limit handling (`handle_rate_limit`) and policy
evaluation (`evaluate_policy`).

Machine integers are modelled as `Int`, Python floats as `Rat`, Python's
stable `list.sort(key=...)` as `List.insertionSort` (which is stable),
and fallible Python code as `Except Unit` / `Option`.
-/

namespace Auditgh

/-- ASCII case-lowering of one character.  Python's `str.lower()` on the
ASCII identifiers this program compares (tool names, severity labels). -/
def lowerChar (c : Char) : Char :=
  if 65 ≤ c.toNat ∧ c.toNat ≤ 90 then Char.ofNat (c.toNat + 32) else c

/-- `s.lower()` (ASCII). -/
def asciiLower (s : String) : String := ⟨s.data.map lowerChar⟩

/-- ASCII case-raising of one character. -/
def upperChar (c : Char) : Char :=
  if 97 ≤ c.toNat ∧ c.toNat ≤ 122 then Char.ofNat (c.toNat - 32) else c

/-- `s.upper()` (ASCII). -/
def asciiUpper (s : String) : String := ⟨s.data.map upperChar⟩

/-! ### Findings aggregation (`get_top_vulnerabilities`, lines 1760-1785)

A normalized finding record as appended to `vulnerabilities` by the
Safety / npm audit / Trivy / Grype branches: string fields plus the
threat-intel enrichment (`kev`, `epss`).  Missing `kev`/`epss` keys are
falsy in Python and behave as `false` / `0.0` in both the dedup key and
the rank, so total fields are a faithful model of the normalized record. -/
structure Finding where
  type : String
  name : String
  severity : String
  affected_versions : String
  fixed_in : String
  kev : Bool
  epss : Rat
deriving DecidableEq, Repr

/-- The case-insensitive dedup key
`((v.get('type') or '').lower(), ..., (v.get('fixed_in') or '').lower())`. -/
def keyOf (v : Finding) : String × String × String × String × String :=
  (asciiLower v.type, asciiLower v.name, asciiLower v.affected_versions,
   asciiLower v.severity, asciiLower v.fixed_in)

/-- The `seen`-set deduplication loop: first occurrence of each key wins. -/
def dedupAux (seen : List (String × String × String × String × String)) :
    List Finding → List Finding
  | [] => []
  | v :: rest =>
    if keyOf v ∈ seen then dedupAux seen rest
    else v :: dedupAux (keyOf v :: seen) rest

/-- `unique_vulns` as built from `vulnerabilities`. -/
def dedupFindings (l : List Finding) : List Finding := dedupAux [] l

/-- `severity_order.get((v.get('severity') or 'unknown').lower(), 5)`
with `severity_order = {'critical':0,'high':1,'moderate':2,'medium':2,
'low':3,'unknown':4}`. -/
def sevRankCode (t : String) : Int :=
  if t = "critical" then 0
  else if t = "high" then 1
  else if t = "moderate" then 2
  else if t = "medium" then 2
  else if t = "low" then 3
  else if t = "unknown" then 4
  else 5

/-- The `_rank(v)` sort key: `(0 if not kev else -1, -epss, severity rank)`,
compared lexicographically as Python compares key tuples. -/
def keyCode (v : Finding) : Int ×ₗ Rat ×ₗ Int :=
  toLex ((if v.kev then -1 else 0 : Int),
    toLex ((-v.epss : Rat),
      sevRankCode (asciiLower (if v.severity = "" then "unknown" else v.severity))))

/-- Python's `unique_vulns.sort(key=_rank)` relation. -/
def rCode (a b : Finding) : Prop := keyCode a ≤ keyCode b

instance : DecidableRel rCode := fun a b => inferInstanceAs (Decidable (_ ≤ _))

/-- `get_top_vulnerabilities` on the normalized `vulnerabilities` list:
deduplicate, sort stably by `_rank`, return the first five. -/
def topVulns (l : List Finding) : List Finding :=
  (List.insertionSort rCode (dedupFindings l)).take 5

/-! ### The specification's ranking key

The spec's rank: `(knownExploited ? 0 : 1, -exploitProbability, severityRank)`
with `severityRank` mapping `critical high moderate|medium low unknown`
to `0..4`.  This is the spec-side definition, to be compared with
`keyCode` from the source. -/
/-- Severity ranks named by the spec (`critical=0, high=1,
moderate/medium=2, low=3, unknown=4`); values outside the named set are
not constrained by the spec, the catch-all `4` is one reading. -/
def sevRankClaim (t : String) : Int :=
  if t = "critical" then 0
  else if t = "high" then 1
  else if t = "moderate" then 2
  else if t = "medium" then 2
  else if t = "low" then 3
  else 4

/-- The severity strings for which the spec defines a rank. -/
def sevDomain : List String :=
  ["critical", "high", "moderate", "medium", "low", "unknown"]

/-- The spec's composite ranking key. -/
def keyClaim (v : Finding) : Int ×ₗ Rat ×ₗ Int :=
  toLex ((if v.kev then 0 else 1 : Int),
    toLex ((-v.epss : Rat), sevRankClaim (asciiLower v.severity)))

/-- Ascending order on the spec's key. -/
def rClaim (a b : Finding) : Prop := keyClaim a ≤ keyClaim b

instance : DecidableRel rClaim := fun _ _ => inferInstanceAs (Decidable (_ ≤ _))

instance : IsTotal Finding rClaim := ⟨fun _ _ => le_total _ _⟩

instance : IsTrans Finding rClaim := ⟨fun _ _ _ => le_trans⟩

/-! ### Rate-limit wait (`handle_rate_limit`, lines 459-469) -/
/-- `handle_rate_limit`: with an `X-RateLimit-Reset` header value `t` the
wait is `max(0, t - int(time.time())) + 5`; without the header it is a
fixed 60 seconds. -/
def handleRateLimit (reset : Option Int) (now : Int) : Int :=
  match reset with
  | some t => max 0 (t - now) + 5
  | none => 60

/-! ### Concrete findings used in examples -/
/-- The spec's ranking example: `{sev:"high", kev:false, epss:0.1}`. -/
def fHigh : Finding := ⟨"Dependency", "a", "high", "1", "2", false, mkRat 1 10⟩

/-- The spec's ranking example: `{sev:"critical", kev:false, epss:0.05}`. -/
def fCritical : Finding := ⟨"Dependency", "b", "critical", "1", "2", false, mkRat 1 20⟩

/-- The spec's ranking example: `{sev:"low", kev:true, epss:0.0}`. -/
def fLowKev : Finding := ⟨"Dependency", "c", "low", "1", "2", true, 0⟩

/-- Two distinct findings with identical rank keys. -/
def fNodeA : Finding := ⟨"Node", "aaa", "high", "1", "2", false, 0⟩

/-- Same rank key as `fNodeA`, different dedup key. -/
def fNodeB : Finding := ⟨"Node", "bbb", "high", "1", "2", false, 0⟩

/-- Severity outside the spec's named set. -/
def fNegligible : Finding := ⟨"Trivy", "n", "negligible", "1", "2", false, 0⟩

/-- Severity `unknown`. -/
def fUnknown : Finding := ⟨"Trivy", "u", "unknown", "1", "2", false, 0⟩

/-! ### Control checkpoints (`check_control` lines 165-195,
`process_repo` lines 712-810)

`check_control` raises `SystemExit` (not caught by `process_repo`'s
`except Exception`) when `stop.flag` exists, after writing the
`stopped` state; otherwise the job continues.  `process_repo` runs its
tool sequence with `check_control` calls interleaved at fixed places.
The pause loop is orthogonal to the stop claim and is not modelled.
The stop flag's creation time is modelled as the position `stopFrom` in
the action sequence from which the flag exists. -/
/-- One step of a job: a tool invocation or a `check_control` call. -/
inductive Action where
  | tool (name : String)
  | checkpoint
deriving DecidableEq

/-- The fixed action sequence of `process_repo` (lines 712-810):
`safety`/`pip_audit` run before the first checkpoint when a
requirements file exists; the taint scan has its own guarded
checkpoint; the image variants of syft/grype run right after their repo
counterparts without an intervening checkpoint; two consecutive
checkpoints precede checkov. -/
def processRepoActions (hasReq taint docker : Bool) : List Action :=
  (if hasReq then [.tool "safety", .tool "pip_audit"] else [])
  ++ [.checkpoint, .tool "npm_audit",
      .checkpoint, .tool "govulncheck",
      .checkpoint, .tool "bundle_audit",
      .checkpoint, .tool "dependency_check",
      .checkpoint, .tool "semgrep"]
  ++ (if taint then [.checkpoint, .tool "semgrep_taint"] else [])
  ++ [.checkpoint, .tool "syft_repo"]
  ++ (if docker then [.tool "syft_image"] else [])
  ++ [.checkpoint, .tool "grype_repo"]
  ++ (if docker then [.tool "grype_image"] else [])
  ++ [.checkpoint, .checkpoint, .tool "checkov",
      .checkpoint, .tool "gitleaks",
      .checkpoint, .tool "bandit",
      .checkpoint, .tool "trivy_fs",
      .checkpoint]

/-- Run the actions from time `t` with the stop flag present from
position `stopFrom` on: a checkpoint that observes the flag halts the
job (`true` = stopped state recorded); tools always run to completion
once started. -/
def runActions (stopFrom : Nat) : List Action → Nat → List String × Bool
  | [], _ => ([], false)
  | .checkpoint :: rest, t =>
    if stopFrom ≤ t then ([], true) else runActions stopFrom rest (t + 1)
  | .tool n :: rest, t =>
    let r := runActions stopFrom rest (t + 1)
    (n :: r.1, r.2)

/-- `process_repo`'s tool executions and final stopped flag. -/
def processRepoRun (hasReq taint docker : Bool) (stopFrom : Nat) :
    List String × Bool :=
  runActions stopFrom (processRepoActions hasReq taint docker) 0

/-- Position of the first checkpoint at which the stop flag is seen. -/
def firstHalt (stopFrom : Nat) : List Action → Nat → Option Nat
  | [], _ => none
  | .checkpoint :: rest, t =>
    if stopFrom ≤ t then some 0
    else (firstHalt stopFrom rest (t + 1)).map (· + 1)
  | .tool _ :: rest, t => (firstHalt stopFrom rest (t + 1)).map (· + 1)

/-- The tool invocations contained in a prefix of the action list. -/
def toolNames (l : List Action) : List String :=
  l.filterMap (fun a => match a with | .tool n => some n | .checkpoint => none)

/-! ### Repository listing (`get_all_repos`: template_repos.py lines
303-419, scan_gitleaks.py lines 89-126)

The upstream API is modelled as a deterministic oracle
`server : Bool → Nat → PageResp` giving, per endpoint (`false` = the
`/orgs/` path, `true` = the `/users/` fallback path) and page number,
the response every request to that page receives.  The Python loops can
run forever (e.g. on a permanent 403), so the model takes fuel and
returns `none` exactly on fuel exhaustion; every Python `return repos`
is a `some`.  Neither function has an error channel: the Python code
returns a plain list on every path. -/
/-- A repository descriptor as consumed by the per-page filter. -/
structure Repo where
  name : String
  fork : Bool
  archived : Bool
deriving DecidableEq, Repr

/-- One page response from the hosting API. -/
inductive PageResp where
  | ok (repos : List Repo)
  | httpStatus (code : Nat)
  | netErr
deriving DecidableEq

/-- `process_repositories` / `_filter_page_repos`: drop forks/archived
repositories unless included. -/
def filterRepos (incF incA : Bool) (page : List Repo) : List Repo :=
  page.filter (fun r => !((!incF && r.fork) || (!incA && r.archived)))

/-- The nested retry/pagination loop of `get_all_repos`
(template_repos.py): `retry` is the current `retry_count`
(`max_retries = 3`), `triedUser` the `tried_user_fallback` flag,
`isUser` whether `api_path` is the `/users/` endpoint.  A 403 re-issues
the same request after the rate-limit wait without touching
`retry_count`; a 404 on the org endpoint switches to the user endpoint
at page 1 (keeping the accumulator, which is empty when the 404 is on
the first page); a 404 after the fallback and any exhausted retry
return the accumulated list. -/
def getAllReposGo (server : Bool → Nat → PageResp) (incF incA : Bool) :
    Nat → Bool → Bool → Nat → Nat → List Repo → Option (List Repo)
  | 0, _, _, _, _, _ => none
  | fuel + 1, isUser, triedUser, page, retry, repos =>
    match server isUser page with
    | .ok pageRepos =>
      if pageRepos.isEmpty then some repos
      else
        let repos' := repos ++ filterRepos incF incA pageRepos
        if pageRepos.length < 100 then some repos'
        else getAllReposGo server incF incA fuel isUser triedUser (page + 1) 0 repos'
    | .httpStatus code =>
      if code = 403 then
        getAllReposGo server incF incA fuel isUser triedUser page retry repos
      else if code = 404 ∧ ¬triedUser ∧ ¬isUser then
        getAllReposGo server incF incA fuel true true 1 0 repos
      else if code = 404 ∧ triedUser then some repos
      else if retry + 1 ≥ 3 then some repos
      else getAllReposGo server incF incA fuel isUser triedUser page (retry + 1) repos
    | .netErr =>
      if retry + 1 ≥ 3 then some repos
      else getAllReposGo server incF incA fuel isUser triedUser page (retry + 1) repos

/-- `get_all_repos` (template_repos.py): start at the org endpoint,
page 1, no retries used, empty accumulator. -/
def getAllRepos (server : Bool → Nat → PageResp) (incF incA : Bool)
    (fuel : Nat) : Option (List Repo) :=
  getAllReposGo server incF incA fuel false false 1 0 []

/-- The pagination loop of `get_all_repos` (scan_gitleaks.py): a 404 on
the first org page switches to the user endpoint, resets the page and
clears the accumulator; any other request error breaks the loop and
returns the accumulated list. -/
def gitleaksGo (server : Bool → Nat → PageResp) (incF incA : Bool) :
    Nat → Bool → Nat → List Repo → Option (List Repo)
  | 0, _, _, _ => none
  | fuel + 1, isUser, page, repos =>
    match server isUser page with
    | .ok pageRepos =>
      if pageRepos.isEmpty then some repos
      else
        let repos' := repos ++ filterRepos incF incA pageRepos
        if pageRepos.length < 100 then some repos'
        else gitleaksGo server incF incA fuel isUser (page + 1) repos'
    | .httpStatus code =>
      if ¬isUser ∧ page = 1 ∧ code = 404 then
        gitleaksGo server incF incA fuel true 1 []
      else some repos
    | .netErr => some repos

/-- `get_all_repos` (scan_gitleaks.py). -/
def gitleaksGetAllRepos (server : Bool → Nat → PageResp) (incF incA : Bool)
    (fuel : Nat) : Option (List Repo) :=
  gitleaksGo server incF incA fuel false 1 []

/-- A server on which the account exists in neither form. -/
def nfServer : Bool → Nat → PageResp := fun _ _ => .httpStatus 404

/-- A server on which the account exists with zero repositories. -/
def emptyAcctServer : Bool → Nat → PageResp := fun _ _ => .ok []

/-- A server that always fails with a network error. -/
def downServer : Bool → Nat → PageResp := fun _ _ => .netErr

/-- A server that always answers HTTP 500. -/
def err500Server : Bool → Nat → PageResp := fun _ _ => .httpStatus 500

/-- A repository accumulated before the failure. -/
def rAcc : Repo := ⟨"kept", false, false⟩

/-! ### Policy evaluation (`_read_json` lines 1870-1877,
`evaluate_policy` lines 1891-2061, `enrich_grype_with_threat_intel`
lines 1851-1866)

Python JSON values are modelled by the inductive `J`; floats are `Rat`.
Dynamic-typing errors (`AttributeError` on `.get`/`.items()` of a
non-dict, iterating a non-list, `float()`/`.lower()` on unsuitable
values) are the `Except Unit` error.  `int(x)` on numeric strings uses
`String.toInt?`; `float()` on numeric strings and Python float
formatting inside f-strings are not modelled (no claim depends on
them).  `_read_json` returns `None` for a missing or unparsable file,
so the file system is `ToolFile → Option J` with `none` for that case. -/
/-- A Python/JSON value. -/
inductive J where
  | null
  | jb (b : Bool)
  | ji (n : Int)
  | jf (q : Rat)
  | js (s : String)
  | ja (xs : List J)
  | jo (kvs : List (String × J))

/-- Python truthiness. -/
def truthy : J → Bool
  | .null => false
  | .jb b => b
  | .ji n => n ≠ 0
  | .jf q => q ≠ 0
  | .js s => s ≠ ""
  | .ja xs => !xs.isEmpty
  | .jo kvs => !kvs.isEmpty

/-- Python `a or b`. -/
def pyOr (a b : J) : J := if truthy a then a else b

/-- First-match lookup in an object's fields (Python dicts cannot have
duplicate keys, so assoc lists with a first-match lookup model them). -/
def objGetD (kvs : List (String × J)) (k : String) (d : J) : J :=
  ((kvs.find? (fun kv => kv.1 = k)).map Prod.snd).getD d

/-- `v.get(k, d)`: `AttributeError` on a non-dict. -/
def jGetD (v : J) (k : String) (d : J) : Except Unit J :=
  match v with
  | .jo kvs => .ok (objGetD kvs k d)
  | _ => .error ()

/-- `v.items()`: `AttributeError` on a non-dict. -/
def jItems : J → Except Unit (List (String × J))
  | .jo kvs => .ok kvs
  | _ => .error ()

/-- `for x in v` where the loop body would fail on non-dict elements:
iterating a non-list either raises immediately or yields values the
body's `.get` rejects, so a non-list is an error here. -/
def jList : J → Except Unit (List J)
  | .ja xs => .ok xs
  | _ => .error ()

/-- `v.lower()` (only strings have it). -/
def jLowerStr : J → Except Unit String
  | .js s => .ok (asciiLower s)
  | _ => .error ()

/-- `v.upper()`. -/
def jUpperStr : J → Except Unit String
  | .js s => .ok (asciiUpper s)
  | _ => .error ()

/-- `float(v)` (`bool` is an `int` in Python). -/
def pyFloat : J → Except Unit Rat
  | .ji n => .ok n
  | .jf q => .ok q
  | .jb b => .ok (if b then 1 else 0)
  | _ => .error ()

/-- `bool`/`int`/`float`/numeric-string values accepted by `int(v)`
inside a `try` block; `none` models the exception path (`continue`). -/
def pyIntOpt : J → Option Int
  | .ji n => some n
  | .jb b => some (if b then 1 else 0)
  | .jf q => some (q.num.tdiv (q.den : Int))
  | .js s => s.toInt?
  | _ => none

/-- `isinstance(v, (int, float))`, with `bool ⊂ int`. -/
def isNum : J → Bool
  | .ji _ => true
  | .jf _ => true
  | .jb _ => true
  | _ => false

/-- `len(v)`. -/
def jLen : J → Except Unit Nat
  | .ja xs => .ok xs.length
  | .js s => .ok s.length
  | .jo kvs => .ok kvs.length
  | _ => .error ()

/-- `str(v)` as used in f-strings (floats and containers approximated;
no claim depends on them). -/
def jRepr : J → String
  | .null => "None"
  | .jb true => "True"
  | .jb false => "False"
  | .ji n => toString n
  | .jf q => toString q
  | .js s => s
  | .ja _ => "[...]"
  | .jo _ => "{...}"

/-- `d[k] = x`: replace the first binding or append. -/
def setAssoc : List (String × J) → String → J → List (String × J)
  | [], k, x => [(k, x)]
  | (k', v') :: rest, k, x =>
    if k' = k then (k, x) :: rest else (k', v') :: setAssoc rest k x

/-- Short-circuiting `any(f(x) for x in xs)` whose generator may raise. -/
def anyM (f : J → Except Unit Bool) : List J → Except Unit Bool
  | [] => .ok false
  | x :: xs => do
    if (← f x) then pure true else anyM f xs

/-- One match of `enrich_grype_with_threat_intel`'s loop: `none` when
the body raises (`m` or its `vulnerability` is not a dict); a match
whose `vulnerability.id` is falsy is skipped (`continue`); otherwise a
`_threat` entry is written into the match. -/
def enrichMatch (kev : String → Bool) (epss : String → Rat) (m : J) :
    Option J :=
  match m with
  | .jo kvs =>
    match objGetD kvs "vulnerability" (J.jo []) with
    | .jo vkvs =>
      let cve := pyOr (objGetD vkvs "id" J.null) (J.js "")
      if truthy cve then
        let kevV := match cve with | .js s => kev s | _ => false
        let epsV := match cve with | .js s => epss s | _ => 0
        some (J.jo (setAssoc kvs "_threat"
          (J.jo [("kev", J.jb kevV), ("epss", J.jf epsV)])))
      else some m
    | _ => none
  | _ => none

/-- The enrichment loop mutates matches in place; an exception caught
by the surrounding `try` leaves the current and remaining matches
unmodified. -/
def enrichList (kev : String → Bool) (epss : String → Rat) :
    List J → List J
  | [] => []
  | m :: ms =>
    match enrichMatch kev epss m with
    | some m' => m' :: enrichList kev epss ms
    | none => m :: ms

/-- `enrich_grype_with_threat_intel`: never raises (internal
`try/except` returns the data unchanged on error); the KEV and EPSS
feeds are the injected maps `kev`/`epss`. -/
def enrichGrype (kev : String → Bool) (epss : String → Rat) (gd : J) : J :=
  match gd with
  | .jo kvs =>
    match (kvs.find? (fun kv => kv.1 = "matches")).map Prod.snd with
    | none => gd
    | some mv =>
      match pyOr mv (J.ja []) with
      | .ja ms => J.jo (setAssoc kvs "matches" (J.ja (enrichList kev epss ms)))
      | _ => gd
  | _ => gd

/-- The per-tool JSON artifacts `evaluate_policy` reads
(`{repoName}_{tool}.json`). -/
inductive ToolFile where
  | checkov
  | grypeRepo
  | gitleaks
  | semgrep
  | semgrepTaint
  | bandit
  | trivyFs
deriving DecidableEq

/-- `sev_rank = {'critical':4,'high':3,'medium':2,'low':1,'negligible':0}`
with `sev_rank.get(s, -1)`. -/
def grypeSevRank (s : String) : Int :=
  if s = "critical" then 4
  else if s = "high" then 3
  else if s = "medium" then 2
  else if s = "low" then 1
  else if s = "negligible" then 0
  else -1

/-- `(m.get('vulnerability',{}).get('severity') or 'unknown').lower()`. -/
def matchSevLower (m : J) : Except Unit String := do
  let v ← jGetD m "vulnerability" (J.jo [])
  let sv ← jGetD v "severity" J.null
  jLowerStr (pyOr sv (J.js "unknown"))

/-- The `for m in matches: ... break` loop of the grype
`max_severity` gate: the first match at or above the threshold yields
the violation. -/
def grypeFindSev (maxSev : String) : List J → Except Unit (Option String)
  | [] => pure none
  | m :: ms => do
    let s ← matchSevLower m
    if grypeSevRank s ≥ grypeSevRank maxSev then
      pure (some ("grype: severity " ++ s ++ " >= " ++ maxSev))
    else grypeFindSev maxSev ms

/-- The grype gate (lines 1907-1932). -/
def grypeGate (kev : String → Bool) (epss : String → Rat) (cfg : J)
    (file : Option J) : Except Unit (List String) := do
  let gd0 := pyOr (file.getD J.null) (J.jo [])
  let gd := if truthy gd0 then enrichGrype kev epss gd0 else gd0
  let mv ← jGetD gd "matches" J.null
  let mts := pyOr mv (J.ja [])
  let rnk ← jGetD cfg "require_no_kev" (J.jb false)
  let vs1 ←
    if truthy rnk then do
      let ms ← jList mts
      let b ← anyM (fun m => do
        let t ← jGetD m "_threat" (J.jo [])
        let kv ← jGetD t "kev" J.null
        pure (truthy kv)) ms
      pure (if b then ["grype: KEV vulnerability present"] else [])
    else pure []
  let me' ← jGetD cfg "max_epss" J.null
  let vs2 ←
    if isNum me' then do
      let q ← pyFloat me'
      let ms ← jList mts
      let b ← anyM (fun m => do
        let t ← jGetD m "_threat" (J.jo [])
        let ev ← jGetD t "epss" J.null
        let x ← pyFloat (pyOr ev (J.jf 0))
        pure (decide (x ≥ q))) ms
      pure (if b then ["grype: EPSS >= " ++ jRepr me'] else [])
    else pure []
  let msv ← jGetD cfg "max_severity" J.null
  let maxSev ← jLowerStr (pyOr msv (J.js ""))
  let vs3 ←
    if grypeSevRank maxSev ≥ 0 then do
      let ms ← jList mts
      let viol ← grypeFindSev maxSev ms
      pure viol.toList
    else pure []
  pure (vs1 ++ vs2 ++ vs3)

/-- Count table with fixed keys in dict insertion order. -/
def bump (cs : List (String × Int)) (k : String) : List (String × Int) :=
  cs.map (fun p => if p.1 = k then (p.1, p.2 + 1) else p)

/-- `counts.get(k, 0)`. -/
def lookupCount (cs : List (String × Int)) (k : String) : Int :=
  ((cs.find? (fun p => p.1 = k)).map Prod.snd).getD 0

/-- `order = {'CRITICAL':4,'HIGH':3,'MEDIUM':2,'LOW':1,'UNKNOWN':0}`
(shared by the checkov and trivy gates); indexing is only reached for
keys of the table. -/
def checkovOrder (s : String) : Int :=
  if s = "CRITICAL" then 4
  else if s = "HIGH" then 3
  else if s = "MEDIUM" then 2
  else if s = "LOW" then 1
  else 0

/-- The built-in default gate (no policy document, lines 1894-1901):
fail on any CRITICAL/HIGH checkov failed check. -/
def checkovDefaultGate (file : Option J) : Except Unit (List String) := do
  let data := pyOr (file.getD J.null) (J.jo [])
  let res ← jGetD data "results" (J.jo [])
  let failed ← jGetD (pyOr res (J.jo [])) "failed_checks" (J.ja [])
  let fl ← jList (pyOr failed (J.ja []))
  let b ← anyM (fun i => do
    let sv ← jGetD i "severity" J.null
    let s ← jUpperStr (pyOr sv (J.js ""))
    pure (s = "CRITICAL" || s = "HIGH")) fl
  pure (if b then ["checkov: contains High or Critical failed checks"] else [])

/-- The checkov gate (lines 1935-1960). -/
def checkovGate (cfg : J) (file : Option J) : Except Unit (List String) := do
  let data := pyOr (file.getD J.null) (J.jo [])
  let res ← jGetD data "results" (J.jo [])
  let failed ← jGetD (pyOr res (J.jo [])) "failed_checks" (J.ja [])
  let fl ← jList (pyOr failed (J.ja []))
  let counts ← fl.foldlM (fun cs i => do
    let sv ← jGetD i "severity" J.null
    let s ← jUpperStr (pyOr sv (J.js "UNKNOWN"))
    let s' := if ["CRITICAL", "HIGH", "MEDIUM", "LOW", "UNKNOWN"].contains s
      then s else "UNKNOWN"
    pure (bump cs s'))
    [("CRITICAL", (0 : Int)), ("HIGH", 0), ("MEDIUM", 0), ("LOW", 0),
      ("UNKNOWN", 0)]
  let msv ← jGetD cfg "max_severity" J.null
  let maxSev ← jUpperStr (pyOr msv (J.js ""))
  let vsA :=
    if ["CRITICAL", "HIGH", "MEDIUM", "LOW", "UNKNOWN"].contains maxSev then
      match counts.find? (fun p =>
        decide (checkovOrder p.1 ≥ checkovOrder maxSev) && decide (p.2 > 0)
          && ["CRITICAL", "HIGH", "MEDIUM", "LOW"].contains p.1) with
      | some p => ["checkov: contains " ++ p.1 ++ " findings >= " ++ maxSev]
      | none => []
    else []
  let mc ← jGetD cfg "max_counts" J.null
  let items ← jItems (pyOr mc (J.jo []))
  let vsB := items.filterMap (fun kv =>
    match pyIntOpt kv.2 with
    | none => none
    | some lim =>
      let s := asciiUpper kv.1
      if lookupCount counts s > lim then
        some ("checkov: " ++ s ++ " count " ++ toString (lookupCount counts s)
          ++ " exceeds " ++ toString lim)
      else none)
  pure (vsA ++ vsB)

/-- The secrets gate (lines 1963-1970): a missing or non-list gitleaks
file counts zero findings. -/
def secretsGate (cfg : J) (file : Option J) : Except Unit (List String) := do
  let total : Int := match file.getD J.null with
    | .ja xs => (xs.length : Int)
    | _ => 0
  let mf ← jGetD cfg "max_findings" J.null
  pure (match mf with
    | .ji n =>
      if total > n then
        ["secrets: " ++ toString total ++ " findings > " ++ jRepr mf]
      else []
    | .jb b =>
      if total > (if b then 1 else 0) then
        ["secrets: " ++ toString total ++ " findings > " ++ jRepr mf]
      else []
    | _ => [])

/-- `rank = {'critical':3,'high':2,'medium':1,'low':0}` with
`rank.get(s, -1)`. -/
def semgrepRank (s : String) : Int :=
  if s = "critical" then 3
  else if s = "high" then 2
  else if s = "medium" then 1
  else if s = "low" then 0
  else -1

/-- The semgrep gate (lines 1973-1997). -/
def semgrepGate (cfg : J) (file : Option J) : Except Unit (List String) := do
  let data := pyOr (file.getD J.null) (J.jo [])
  let results : J := match data with
    | .jo kvs => objGetD kvs "results" (J.ja [])
    | _ => J.ja []
  let rl ← jList results
  let counts ← rl.foldlM (fun cs r => do
    let ex ← jGetD r "extra" (J.jo [])
    let sv ← jGetD ex "severity" J.null
    let s ← jUpperStr (pyOr sv (J.js ""))
    pure (if s = "ERROR" then bump cs "high"
      else if s = "WARNING" then bump cs "medium"
      else if s = "INFO" then bump cs "low"
      else cs))
    [("high", (0 : Int)), ("medium", 0), ("low", 0)]
  let msv ← jGetD cfg "max_severity" J.null
  let maxSev ← jLowerStr (pyOr msv (J.js ""))
  let vsA :=
    if ["critical", "high", "medium", "low"].contains maxSev then
      match counts.find? (fun p =>
        decide (semgrepRank p.1 ≥ semgrepRank maxSev) && decide (p.2 > 0)) with
      | some p => ["semgrep: contains " ++ p.1 ++ " findings >= " ++ maxSev]
      | none => []
    else []
  let mc ← jGetD cfg "max_counts" J.null
  let items ← jItems (pyOr mc (J.jo []))
  let vsB := items.filterMap (fun kv =>
    match pyIntOpt kv.2 with
    | none => none
    | some lim =>
      let n := lookupCount counts (asciiLower kv.1)
      if n > lim then
        some ("semgrep: " ++ kv.1 ++ " count " ++ toString n ++ " exceeds "
          ++ jRepr kv.2)
      else none)
  pure (vsA ++ vsB)

/-- The semgrep taint gate (lines 2000-2007). -/
def taintGate (cfg : J) (file : Option J) : Except Unit (List String) := do
  let data := pyOr (file.getD J.null) (J.jo [])
  let flows : J := match data with
    | .jo kvs => objGetD kvs "results" (J.ja [])
    | _ => J.ja []
  let mfv ← jGetD cfg "max_flows" J.null
  match mfv with
  | .ji n => do
    let len ← jLen flows
    pure (if (len : Int) > n then
      ["semgrep_taint: flows " ++ toString (len : Int) ++ " exceeds "
        ++ jRepr mfv]
      else [])
  | .jb b => do
    let len ← jLen flows
    pure (if (len : Int) > (if b then 1 else 0) then
      ["semgrep_taint: flows " ++ toString (len : Int) ++ " exceeds "
        ++ jRepr mfv]
      else [])
  | _ => pure []

/-- `order = {'CRITICAL':3,'HIGH':2,'MEDIUM':1,'LOW':0}` with
`order.get(s, -1)`. -/
def banditRank (s : String) : Int :=
  if s = "CRITICAL" then 3
  else if s = "HIGH" then 2
  else if s = "MEDIUM" then 1
  else if s = "LOW" then 0
  else -1

/-- The bandit gate (lines 2010-2032). -/
def banditGate (cfg : J) (file : Option J) : Except Unit (List String) := do
  let bd := pyOr (file.getD J.null) (J.jo [])
  let results : J := match bd with
    | .jo kvs => objGetD kvs "results" (J.ja [])
    | _ => J.ja []
  let rl ← jList results
  let counts ← rl.foldlM (fun cs r => do
    let sv ← jGetD r "issue_severity" J.null
    let s ← jUpperStr (pyOr sv (J.js ""))
    pure (if ["HIGH", "MEDIUM", "LOW"].contains s then bump cs s else cs))
    [("HIGH", (0 : Int)), ("MEDIUM", 0), ("LOW", 0)]
  let msv ← jGetD cfg "max_severity" J.null
  let maxSev ← jUpperStr (pyOr msv (J.js ""))
  let vsA :=
    if ["CRITICAL", "HIGH", "MEDIUM", "LOW"].contains maxSev then
      match counts.find? (fun p =>
        decide (banditRank p.1 ≥ banditRank maxSev) && decide (p.2 > 0)) with
      | some p => ["bandit: contains " ++ p.1 ++ " findings >= " ++ maxSev]
      | none => []
    else []
  let mc ← jGetD cfg "max_counts" J.null
  let items ← jItems (pyOr mc (J.jo []))
  let vsB := items.filterMap (fun kv =>
    match pyIntOpt kv.2 with
    | none => none
    | some lim =>
      let n := lookupCount counts (asciiUpper kv.1)
      if n > lim then
        some ("bandit: " ++ kv.1 ++ " count " ++ toString n ++ " exceeds "
          ++ jRepr kv.2)
      else none)
  pure (vsA ++ vsB)

/-- The trivy filesystem gate (lines 2035-2059). -/
def trivyGate (cfg : J) (file : Option J) : Except Unit (List String) := do
  let td := pyOr (file.getD J.null) (J.jo [])
  let results : J := match td with
    | .jo kvs => objGetD kvs "Results" (J.ja [])
    | _ => J.ja []
  let rl ← jList results
  let counts ← rl.foldlM (fun cs res => do
    let vv ← jGetD res "Vulnerabilities" (J.ja [])
    let vl ← jList (pyOr vv (J.ja []))
    vl.foldlM (fun cs2 v => do
      let sv ← jGetD v "Severity" J.null
      let s ← jUpperStr (pyOr sv (J.js "UNKNOWN"))
      let s' := if ["CRITICAL", "HIGH", "MEDIUM", "LOW", "UNKNOWN"].contains s
        then s else "UNKNOWN"
      pure (bump cs2 s')) cs)
    [("CRITICAL", (0 : Int)), ("HIGH", 0), ("MEDIUM", 0), ("LOW", 0),
      ("UNKNOWN", 0)]
  let msv ← jGetD cfg "max_severity" J.null
  let maxSev ← jUpperStr (pyOr msv (J.js ""))
  let vsA :=
    if ["CRITICAL", "HIGH", "MEDIUM", "LOW", "UNKNOWN"].contains maxSev then
      match counts.find? (fun p =>
        decide (checkovOrder p.1 ≥ checkovOrder maxSev) && decide (p.2 > 0)) with
      | some p => ["trivy_fs: contains " ++ p.1 ++ " findings >= " ++ maxSev]
      | none => []
    else []
  let mc ← jGetD cfg "max_counts" J.null
  let items ← jItems (pyOr mc (J.jo []))
  let vsB := items.filterMap (fun kv =>
    match pyIntOpt kv.2 with
    | none => none
    | some lim =>
      let n := lookupCount counts (asciiUpper kv.1)
      if n > lim then
        some ("trivy_fs: " ++ kv.1 ++ " count " ++ toString n ++ " exceeds "
          ++ toString lim)
      else none)
  pure (vsA ++ vsB)

/-- The violation list built by `evaluate_policy`: the default checkov
gate when no policy document loaded, otherwise the seven tool gates in
source order. -/
def evalViolations (kev : String → Bool) (epss : String → Rat) (policy : J)
    (fs : ToolFile → Option J) : Except Unit (List String) :=
  if ¬ truthy policy then checkovDefaultGate (fs .checkov)
  else do
    let gv ← jGetD policy "gates" J.null
    let gates := pyOr gv (J.jo [])
    let gcfgv ← jGetD gates "grype" J.null
    let gcfg := pyOr gcfgv (J.jo [])
    let vs1 ← if truthy gcfg then grypeGate kev epss gcfg (fs .grypeRepo)
      else pure []
    let ccfgv ← jGetD gates "checkov" J.null
    let ccfg := pyOr ccfgv (J.jo [])
    let vs2 ← if truthy ccfg then checkovGate ccfg (fs .checkov) else pure []
    let scfgv ← jGetD gates "secrets" J.null
    let scfg := pyOr scfgv (J.jo [])
    let vs3 ← if truthy scfg then secretsGate scfg (fs .gitleaks) else pure []
    let sgv ← jGetD gates "semgrep" J.null
    let sgcfg := pyOr sgv (J.jo [])
    let vs4 ← if truthy sgcfg then semgrepGate sgcfg (fs .semgrep)
      else pure []
    let tv ← jGetD gates "semgrep_taint" J.null
    let tcfg := pyOr tv (J.jo [])
    let vs5 ← if truthy tcfg then taintGate tcfg (fs .semgrepTaint)
      else pure []
    let bv ← jGetD gates "bandit" J.null
    let bcfg := pyOr bv (J.jo [])
    let vs6 ← if truthy bcfg then banditGate bcfg (fs .bandit) else pure []
    let tvv ← jGetD gates "trivy_fs" J.null
    let tvcfg := pyOr tvv (J.jo [])
    let vs7 ← if truthy tvcfg then trivyGate tvcfg (fs .trivyFs) else pure []
    pure (vs1 ++ vs2 ++ vs3 ++ vs4 ++ vs5 ++ vs6 ++ vs7)

/-- `evaluate_policy`: `(len(violations) == 0, violations)`. -/
def evaluatePolicy (kev : String → Bool) (epss : String → Rat) (policy : J)
    (fs : ToolFile → Option J) : Except Unit (Bool × List String) := do
  let vs ← evalViolations kev epss policy fs
  pure (vs.isEmpty, vs)

/-- The empty report directory: every tool output file is missing. -/
def noFiles : ToolFile → Option J := fun _ => none

/-- KEV feed stub. -/
def kev0 : String → Bool := fun _ => false

/-- EPSS feed stub. -/
def epss0 : String → Rat := fun _ => 0

/-- A policy whose secrets gate sets `max_findings: -1`. -/
def policyNegSecrets : J :=
  .jo [("gates", .jo [("secrets", .jo [("max_findings", .ji (-1))])])]

/-- A policy with only `grype: {require_no_kev: true}`. -/
def policyGrypeKev : J :=
  .jo [("gates", .jo [("grype", .jo [("require_no_kev", .jb true)])])]

/-- A report directory whose grype JSON parses to the list `[1]`. -/
def grypeListFile : ToolFile → Option J :=
  fun t => if t = .grypeRepo then some (.ja [.ji 1]) else none

/-! ### Benign gate configurations

An absent tool output file contributes no violation only for gate
configurations that are JSON objects whose `max_severity` is a string
(or falsy) and whose count limits are non-negative; the predicates
below capture this. -/
/-- A value `(v or '').lower()` accepts: a string or something falsy. -/
def strOrFalsy : J → Bool
  | .js _ => true
  | v => !truthy v

/-- Field access on an object-shaped config (null otherwise). -/
def objGet (v : J) (k : String) : J :=
  match v with
  | .jo kvs => objGetD kvs k J.null
  | _ => J.null

/-- `isinstance(v, dict)`-shaped test. -/
def isObj : J → Bool
  | .jo _ => true
  | _ => false

/-- A `max_counts` mapping whose parsable limits are all non-negative
(or a falsy placeholder). -/
def nonNegLimits : J → Bool
  | .jo kvs => kvs.all (fun kv =>
      match pyIntOpt kv.2 with
      | none => true
      | some n => decide (0 ≤ n))
  | v => !truthy v

/-- An int-like limit that is non-negative (non-int values never fire
the comparison with zero findings). -/
def nonNegIntOpt : J → Bool
  | .ji n => decide (0 ≤ n)
  | _ => true

/-- Benign grype gate config. -/
def benignGrypeCfg (cfg : J) : Bool :=
  isObj cfg && strOrFalsy (objGet cfg "max_severity")

/-- Benign count-style gate config (checkov, semgrep, bandit,
trivy_fs). -/
def benignCountCfg (cfg : J) : Bool :=
  isObj cfg && strOrFalsy (objGet cfg "max_severity")
    && nonNegLimits (objGet cfg "max_counts")

/-- Benign secrets gate config. -/
def benignSecretsCfg (cfg : J) : Bool :=
  isObj cfg && nonNegIntOpt (objGet cfg "max_findings")

/-- Benign taint gate config. -/
def benignTaintCfg (cfg : J) : Bool :=
  isObj cfg && nonNegIntOpt (objGet cfg "max_flows")

/-- A grype JSON report with a single match carrying the given
severity. -/
def mkGrypeMatchFile (sev : String) : J :=
  .jo [("matches",
    .ja [.jo [("vulnerability", .jo [("severity", .js sev)])]])]

/-! ### Theorems -/

/-! ### Generic lemmas about stable insertion sort -/
theorem orderedInsert_congr {α : Type} {r s : α → α → Prop}
    [DecidableRel r] [DecidableRel s] (a : α) (l : List α)
    (h : ∀ b ∈ l, r a b ↔ s a b) :
    l.orderedInsert r a = l.orderedInsert s a := by
  induction l with
  | nil => rfl
  | cons b t ih =>
    simp only [List.orderedInsert]
    by_cases hr : r a b
    · rw [if_pos hr, if_pos ((h b (by simp)).mp hr)]
    · rw [if_neg hr, if_neg (fun hs => hr ((h b (by simp)).mpr hs)),
        ih (fun c hc => h c (by simp [hc]))]

theorem insertionSort_congr {α : Type} {r s : α → α → Prop}
    [DecidableRel r] [DecidableRel s] (l : List α)
    (h : ∀ a ∈ l, ∀ b ∈ l, r a b ↔ s a b) :
    l.insertionSort r = l.insertionSort s := by
  induction l with
  | nil => rfl
  | cons a t ih =>
    simp only [List.insertionSort]
    rw [ih (fun x hx y hy => h x (by simp [hx]) y (by simp [hy]))]
    exact orderedInsert_congr a _ (fun b hb =>
      h a (by simp) b (by simp [(List.perm_insertionSort s t).mem_iff.mp hb]))

/-- Stability of `orderedInsert` for the key-based relation `rClaim`:
the sublist of elements with any fixed key value is preserved. -/
theorem filter_orderedInsert_keyClaim (k : Int ×ₗ Rat ×ₗ Int) (a : Finding)
    (l : List Finding) :
    (l.orderedInsert rClaim a).filter (fun v => keyClaim v = k) =
      if keyClaim a = k then a :: l.filter (fun v => keyClaim v = k)
      else l.filter (fun v => keyClaim v = k) := by
  induction l with
  | nil =>
    by_cases hk : keyClaim a = k <;> simp [List.orderedInsert, hk]
  | cons b t ih =>
    simp only [List.orderedInsert]
    by_cases hr : rClaim a b
    · rw [if_pos hr]
      by_cases hk : keyClaim a = k <;> by_cases hb' : keyClaim b = k <;>
        simp [List.filter_cons, hk, hb']
    · rw [if_neg hr]
      by_cases hk : keyClaim a = k
      · have hb' : ¬ keyClaim b = k :=
          fun hbk => hr (show keyClaim a ≤ keyClaim b from (hk.trans hbk.symm).le)
        simp [List.filter_cons, hk, hb', ih]
      · by_cases hb' : keyClaim b = k <;> simp [List.filter_cons, hk, hb', ih]

/-- Stability of insertion sort by the spec's key: for every key value,
the elements carrying that key appear in the output in their input
order. -/
theorem filter_insertionSort_keyClaim (k : Int ×ₗ Rat ×ₗ Int) (l : List Finding) :
    (l.insertionSort rClaim).filter (fun v => keyClaim v = k) =
      l.filter (fun v => keyClaim v = k) := by
  induction l with
  | nil => rfl
  | cons a t ih =>
    simp only [List.insertionSort]
    rw [filter_orderedInsert_keyClaim, ih]
    by_cases hk : keyClaim a = k <;> simp [List.filter_cons, hk]

/-! ### Characterization of the dedup loop -/
theorem dedupAux_sublist (seen : List (String × String × String × String × String)) :
    ∀ l : List Finding, (dedupAux seen l).Sublist l := by
  intro l
  induction l generalizing seen with
  | nil => simp [dedupAux]
  | cons v rest ih =>
    simp only [dedupAux]
    by_cases hv : keyOf v ∈ seen
    · exact List.Sublist.cons v (by simpa [hv] using ih seen)
    · simpa [hv] using List.Sublist.cons₂ v (ih (keyOf v :: seen))

theorem dedupAux_filter (k : String × String × String × String × String)
    (seen : List (String × String × String × String × String)) :
    ∀ l : List Finding,
      (dedupAux seen l).filter (fun v => keyOf v = k) =
        if k ∈ seen then [] else (l.filter (fun v => keyOf v = k)).take 1 := by
  intro l
  induction l generalizing seen with
  | nil => by_cases hk : k ∈ seen <;> simp [dedupAux, hk]
  | cons v rest ih =>
    simp only [dedupAux]
    by_cases hv : keyOf v ∈ seen
    · rw [if_pos hv, ih seen]
      by_cases hk : k ∈ seen
      · simp [hk]
      · have hvk : ¬ keyOf v = k := fun h => hk (h ▸ hv)
        simp [hk, List.filter_cons, hvk]
    · rw [if_neg hv]
      by_cases hvk : keyOf v = k
      · have hk : k ∉ seen := fun h => hv (hvk ▸ h)
        have hmem : k ∈ keyOf v :: seen := by simp [hvk]
        simp [List.filter_cons, hvk, hk, ih, hmem]
      · have hne : ¬ k = keyOf v := fun h => hvk h.symm
        by_cases hk : k ∈ seen
        · have hmem : k ∈ keyOf v :: seen := by simp [hk]
          simp [List.filter_cons, hvk, hk, ih, hmem]
        · have hmem : ¬ k ∈ keyOf v :: seen := by simp [hne, hk]
          simp [List.filter_cons, hvk, hk, ih, hmem]

theorem dedupFindings_sublist (l : List Finding) : (dedupFindings l).Sublist l :=
  dedupAux_sublist [] l

theorem dedupFindings_filter (k : String × String × String × String × String)
    (l : List Finding) :
    (dedupFindings l).filter (fun v => keyOf v = k) =
      (l.filter (fun v => keyOf v = k)).take 1 := by
  simpa using dedupAux_filter k [] l

/-- Appending a record whose key already occurs does not change the
deduplicated list. -/
theorem dedupAux_append_dup (v : Finding)
    (seen : List (String × String × String × String × String)) :
    ∀ l : List Finding, (keyOf v ∈ seen ∨ keyOf v ∈ l.map keyOf) →
      dedupAux seen (l ++ [v]) = dedupAux seen l := by
  intro l
  induction l generalizing seen with
  | nil =>
    intro h
    rcases h with h | h
    · simp [dedupAux, h]
    · simp at h
  | cons w rest ih =>
    intro h
    simp only [List.cons_append, dedupAux, List.append_eq]
    by_cases hw : keyOf w ∈ seen
    · rw [if_pos hw, if_pos hw, ih seen]
      rcases h with h | h
      · exact Or.inl h
      · rcases List.mem_map.mp h with ⟨u, hu, hk⟩
        rcases List.mem_cons.mp hu with rfl | hu
        · exact Or.inl (hk ▸ hw)
        · exact Or.inr (List.mem_map.mpr ⟨u, hu, hk⟩)
    · rw [if_neg hw, if_neg hw, ih (keyOf w :: seen)]
      rcases h with h | h
      · exact Or.inl (List.mem_cons.mpr (Or.inr h))
      · rcases List.mem_map.mp h with ⟨u, hu, hk⟩
        rcases List.mem_cons.mp hu with rfl | hu
        · exact Or.inl (List.mem_cons.mpr (Or.inl hk.symm))
        · exact Or.inr (List.mem_map.mpr ⟨u, hu, hk⟩)

theorem dedupFindings_append_dup (l : List Finding) (v : Finding)
    (h : keyOf v ∈ l.map keyOf) :
    dedupFindings (l ++ [v]) = dedupFindings l :=
  dedupAux_append_dup v [] l (Or.inr h)

/-! ### Equivalence of the code's rank and the spec's rank on the
severity labels the spec names -/
theorem sevRank_eq_on_domain (t : String) (ht : t ∈ sevDomain) :
    sevRankCode t = sevRankClaim t := by
  rcases (by simpa [sevDomain] using ht : t = "critical" ∨ t = "high" ∨
      t = "moderate" ∨ t = "medium" ∨ t = "low" ∨ t = "unknown") with
    rfl | rfl | rfl | rfl | rfl | rfl <;> rfl

theorem rCode_iff_rClaim (a b : Finding)
    (ha : asciiLower a.severity ∈ sevDomain)
    (hb : asciiLower b.severity ∈ sevDomain) :
    rCode a b ↔ rClaim a b := by
  have hane : ¬ a.severity = "" := by
    intro h
    rw [h] at ha
    exact absurd ha (by decide)
  have hbne : ¬ b.severity = "" := by
    intro h
    rw [h] at hb
    exact absurd hb (by decide)
  show keyCode a ≤ keyCode b ↔ keyClaim a ≤ keyClaim b
  simp only [keyCode, keyClaim, if_neg hane, if_neg hbne,
    sevRank_eq_on_domain _ ha, sevRank_eq_on_domain _ hb]
  cases a.kev <;> cases b.kev <;>
    simp only [Prod.Lex.le_iff, Prod.Lex.lt_iff] <;> norm_num

/-! ### Claim theorems: aggregation -/
/-- C1 (counterexample): on the spec's example findings the
aggregator returns the KEV item first and then the `high` finding
(EPSS 0.1) BEFORE the `critical` finding (EPSS 0.05), because
`_rank` compares EPSS before severity.  The claimed output
`[kev-low, critical, high]` is not what `get_top_vulnerabilities`
produces. -/
theorem C1_ranking_example_counterexample :
    topVulns [fHigh, fCritical, fLowKev] = [fLowKev, fHigh, fCritical]
    ∧ topVulns [fHigh, fCritical, fLowKev] ≠ [fLowKev, fCritical, fHigh] := by
  constructor
  · decide
  · decide

/-- C1 (amended): for the input `[high/epss .1, critical/epss .05,
low/kev]` the ranked output places the KEV item first, then the `high`
finding, then the `critical` finding, since the negated EPSS score is
compared before the severity rank. -/
theorem C1_ranking_example_actual :
    topVulns [fHigh, fCritical, fLowKev] = [fLowKev, fHigh, fCritical] := by
  decide

/-- C2: on lists whose (lower-cased) severities are among the labels the
spec ranks, the aggregator output is exactly the first five elements of
the stable ascending sort of the deduplicated findings by the spec's
composite key `(kev ? 0 : 1, -epss, severityRank)`; that sort is sorted
by the spec key, and it keeps the input order of equal-key findings. -/
theorem C2_rank_matches_spec (l : List Finding)
    (h : ∀ v ∈ l, asciiLower v.severity ∈ sevDomain) :
    topVulns l = ((dedupFindings l).insertionSort rClaim).take 5
    ∧ ((dedupFindings l).insertionSort rClaim).Sorted rClaim
    ∧ ∀ k, ((dedupFindings l).insertionSort rClaim).filter
        (fun v => keyClaim v = k) =
        (dedupFindings l).filter (fun v => keyClaim v = k) := by
  refine ⟨?_, List.sorted_insertionSort rClaim _,
    fun k => filter_insertionSort_keyClaim k (dedupFindings l)⟩
  unfold topVulns
  rw [insertionSort_congr (dedupFindings l) (fun a hha b hhb =>
    rCode_iff_rClaim a b
      (h a ((dedupFindings_sublist l).subset hha))
      (h b ((dedupFindings_sublist l).subset hhb)))]

/-- C2 witness: the theorem applied to a concrete two-element list. -/
theorem C2_rank_matches_spec_witness :
    topVulns [fHigh, fCritical] =
      ((dedupFindings [fHigh, fCritical]).insertionSort rClaim).take 5
    ∧ ((dedupFindings [fHigh, fCritical]).insertionSort rClaim).Sorted rClaim
    ∧ ((dedupFindings [fHigh, fCritical]).insertionSort rClaim).filter
        (fun v => keyClaim v = keyClaim fHigh) =
        (dedupFindings [fHigh, fCritical]).filter
          (fun v => keyClaim v = keyClaim fHigh) :=
  ⟨(C2_rank_matches_spec [fHigh, fCritical] (by decide)).1,
   (C2_rank_matches_spec [fHigh, fCritical] (by decide)).2.1,
   (C2_rank_matches_spec [fHigh, fCritical] (by decide)).2.2 (keyClaim fHigh)⟩

/-- C3: deduplication returns a subsequence of the input in which, for
every case-insensitive `(type, name, affected_versions, severity,
fixed_in)` key, exactly the first input occurrence of that key survives;
appending a record whose key already occurs changes nothing, so two
findings identical in the five fields collapse to one record. -/
theorem C3_dedup_first_occurrence (l : List Finding) :
    (dedupFindings l).Sublist l
    ∧ (∀ k, (dedupFindings l).filter (fun v => keyOf v = k) =
        (l.filter (fun v => keyOf v = k)).take 1)
    ∧ ∀ w : Finding, keyOf w ∈ l.map keyOf →
        dedupFindings (l ++ [w]) = dedupFindings l :=
  ⟨dedupFindings_sublist l,
   fun k => dedupFindings_filter k l,
   fun w hw => dedupAux_append_dup w [] l (Or.inr hw)⟩

/-- C3 witness: duplicate `grype/lodash`-style records collapse. -/
theorem C3_dedup_first_occurrence_witness :
    (dedupFindings [fNodeA, fNodeA]).Sublist [fNodeA, fNodeA]
    ∧ (dedupFindings [fNodeA, fNodeA]).filter
        (fun v => keyOf v = keyOf fNodeA) =
        (([fNodeA, fNodeA] : List Finding).filter
          (fun v => keyOf v = keyOf fNodeA)).take 1
    ∧ dedupFindings ([fNodeA] ++ [fNodeA]) = dedupFindings [fNodeA] :=
  ⟨(C3_dedup_first_occurrence [fNodeA, fNodeA]).1,
   (C3_dedup_first_occurrence [fNodeA, fNodeA]).2.1 (keyOf fNodeA),
   (C3_dedup_first_occurrence [fNodeA]).2.2 fNodeA (by decide)⟩

/-- C7 (counterexample): `aggregate` is not invariant under arbitrary
permutations of the input: swapping two distinct equal-rank findings
(no duplicates involved) swaps them in the output, because ties keep
source order. -/
theorem C7_not_permutation_invariant :
    List.Perm [fNodeA, fNodeB] [fNodeB, fNodeA]
    ∧ topVulns [fNodeA, fNodeB] = [fNodeA, fNodeB]
    ∧ topVulns [fNodeB, fNodeA] = [fNodeB, fNodeA]
    ∧ topVulns [fNodeA, fNodeB] ≠ topVulns [fNodeB, fNodeA] := by
  refine ⟨List.Perm.swap fNodeB fNodeA [], by decide, by decide, by decide⟩

/-- C7 (amended): the aggregator's output depends only on the
deduplicated first-occurrence sequence: two inputs with the same
deduplication give the same ranked output, and in particular inserting a
duplicate record (one whose case-insensitive key already occurs) at the
end changes nothing. -/
theorem C7_dedup_extensional :
    (∀ l₁ l₂ : List Finding, dedupFindings l₁ = dedupFindings l₂ →
      topVulns l₁ = topVulns l₂)
    ∧ ∀ (l : List Finding) (v : Finding), keyOf v ∈ l.map keyOf →
        topVulns (l ++ [v]) = topVulns l := by
  constructor
  · intro l₁ l₂ h
    unfold topVulns
    rw [h]
  · intro l v h
    unfold topVulns
    rw [dedupFindings_append_dup l v h]

/-- C7 witness: a list with a duplicate aggregates like the list
without it. -/
theorem C7_dedup_extensional_witness :
    topVulns [fNodeB, fNodeB] = topVulns [fNodeB]
    ∧ topVulns ([fNodeB] ++ [fNodeB]) = topVulns [fNodeB] :=
  ⟨(C7_dedup_extensional).1 [fNodeB, fNodeB] [fNodeB] (by decide),
   (C7_dedup_extensional).2 [fNodeB] fNodeB (by decide)⟩

/-- C8: `handle_rate_limit` waits `(reset - now) + 5` seconds whenever
`now < reset`, the wait is never negative, and a missing reset header
falls back to a fixed 60-second wait. -/
theorem C8_rate_limit_wait (t now : Int) (h : now < t) :
    handleRateLimit (some t) now = (t - now) + 5
    ∧ 0 ≤ handleRateLimit (some t) now
    ∧ handleRateLimit none now = 60 := by
  have h0 : (0 : Int) ≤ t - now := by omega
  refine ⟨?_, ?_, rfl⟩
  · show max 0 (t - now) + 5 = t - now + 5
    rw [max_eq_right h0]
  · show (0 : Int) ≤ max 0 (t - now) + 5
    have h1 : (0 : Int) ≤ max 0 (t - now) := le_max_left 0 (t - now)
    omega

theorem runActions_eq (stopFrom : Nat) (l : List Action) (t : Nat) :
    runActions stopFrom l t =
      (toolNames (l.take ((firstHalt stopFrom l t).getD l.length)),
        (firstHalt stopFrom l t).isSome) := by
  induction l generalizing t with
  | nil => simp [runActions, firstHalt, toolNames]
  | cons a rest ih =>
    cases a with
    | checkpoint =>
      simp only [runActions, firstHalt]
      by_cases hs : stopFrom ≤ t
      · simp [hs, toolNames]
      · rw [if_neg hs, if_neg hs, ih (t + 1)]
        cases hrec : firstHalt stopFrom rest (t + 1) with
        | none => simp [toolNames, List.take, List.take_length]
        | some i => simp [toolNames]
    | tool n =>
      simp only [runActions, firstHalt]
      rw [ih (t + 1)]
      cases hrec : firstHalt stopFrom rest (t + 1) with
      | none => simp [toolNames, List.take, List.take_length]
      | some i => simp [toolNames]

/-- C4 (counterexample): with a Python requirements file present, a stop
flag that exists before the job's first checkpoint still lets `safety`
and `pip_audit` execute (two tools, not zero); and with a Docker image
configured, a stop flag created between `syft_repo` (tool 6) and
`syft_image` (tool 7) does not prevent `syft_image` from running,
because no checkpoint separates them. -/
theorem C4_stop_checkpoint_counterexample :
    processRepoRun true false false 0 = (["safety", "pip_audit"], true)
    ∧ (["safety", "pip_audit"] : List String) ≠ []
    ∧ processRepoRun false false true 12 =
        (["npm_audit", "govulncheck", "bundle_audit", "dependency_check",
          "semgrep", "syft_repo", "syft_image"], true) := by
  refine ⟨by decide, by decide, by decide⟩

/-- C4 (amended): for every configuration and stop-flag position, the
job executes exactly the tools that precede the first checkpoint
reached while the flag exists (all of them when no such checkpoint
exists), and records the stopped state exactly when some checkpoint
observes the flag.  Tools between two consecutive checkpoints run as a
block; `safety`/`pip_audit` precede the first checkpoint. -/
theorem C4_stop_checkpoint_semantics (hasReq taint docker : Bool)
    (stopFrom : Nat) :
    processRepoRun hasReq taint docker stopFrom =
      (toolNames ((processRepoActions hasReq taint docker).take
          ((firstHalt stopFrom (processRepoActions hasReq taint docker) 0).getD
            (processRepoActions hasReq taint docker).length)),
        (firstHalt stopFrom (processRepoActions hasReq taint docker) 0).isSome) :=
  runActions_eq stopFrom (processRepoActions hasReq taint docker) 0

/-- C5 (counterexample): when both the org endpoint and the user
endpoint return 404, both listers return the same normal value
`some []` that an existing account with zero repositories produces: no
`NotFound` failure is surfaced to the caller. -/
theorem C5_no_notfound_surfaced :
    getAllRepos nfServer true true 10 = some []
    ∧ getAllRepos emptyAcctServer true true 10 = some []
    ∧ gitleaksGetAllRepos nfServer true true 10 = some []
    ∧ gitleaksGetAllRepos emptyAcctServer true true 10 = some [] := by
  refine ⟨by decide, by decide, by decide, by decide⟩

/-- C5 (amended): a 404 from the org endpoint on the first page makes
both listers switch once to the user endpoint and restart pagination at
page 1 with an empty accumulator; if the user endpoint then also
returns 404, the function returns the accumulated (empty) list instead
of surfacing a NotFound failure. -/
theorem C5_fallback_then_return (server : Bool → Nat → PageResp)
    (incF incA : Bool) (fuel : Nat) :
    (server false 1 = .httpStatus 404 →
      getAllRepos server incF incA (fuel + 1) =
        getAllReposGo server incF incA fuel true true 1 0 [])
    ∧ (server false 1 = .httpStatus 404 →
      gitleaksGetAllRepos server incF incA (fuel + 1) =
        gitleaksGo server incF incA fuel true 1 [])
    ∧ (server false 1 = .httpStatus 404 → server true 1 = .httpStatus 404 →
      getAllRepos server incF incA (fuel + 2) = some []
      ∧ gitleaksGetAllRepos server incF incA (fuel + 2) = some []) := by
  refine ⟨?_, ?_, ?_⟩
  · intro h
    simp only [getAllRepos]
    simp only [getAllReposGo, h]
    norm_num
  · intro h
    simp only [gitleaksGetAllRepos]
    simp only [gitleaksGo, h]
    norm_num
  · intro h h'
    constructor
    · show getAllReposGo server incF incA (fuel + 2) false false 1 0 [] = some []
      simp only [getAllReposGo, h, h']
      norm_num
    · show gitleaksGo server incF incA (fuel + 2) false 1 [] = some []
      simp only [gitleaksGo, h, h']
      norm_num

/-- C5 witness: the amended theorem applied to the concrete
both-endpoints-404 server. -/
theorem C5_fallback_then_return_witness :
    getAllRepos nfServer false false 3 =
      getAllReposGo nfServer false false 2 true true 1 0 []
    ∧ gitleaksGetAllRepos nfServer false false 3 =
      gitleaksGo nfServer false false 2 true 1 []
    ∧ (getAllRepos nfServer false false 4 = some []
      ∧ gitleaksGetAllRepos nfServer false false 4 = some []) :=
  ⟨(C5_fallback_then_return nfServer false false 2).1 rfl,
   (C5_fallback_then_return nfServer false false 2).2.1 rfl,
   (C5_fallback_then_return nfServer false false 2).2.2 rfl rfl⟩

/-- C9: the listers never surface a failure: a request that keeps
failing with a network error, or (template variant) with a
non-403/404 HTTP status after all three retry attempts, or (gitleaks
variant) with any status other than the first-page org 404, makes the
function return the repositories accumulated so far as a normal
result. -/
theorem C9_listing_returns_accumulated :
    (∀ (server : Bool → Nat → PageResp) (incF incA : Bool)
      (fuel : Nat) (isUser tried : Bool) (page : Nat) (repos : List Repo),
      server isUser page = .netErr →
      getAllReposGo server incF incA (fuel + 3) isUser tried page 0 repos =
        some repos)
    ∧ (∀ (server : Bool → Nat → PageResp) (incF incA : Bool)
      (fuel : Nat) (isUser tried : Bool) (page : Nat) (repos : List Repo)
      (code : Nat), code ≠ 403 → ¬(code = 404 ∧ ¬tried ∧ ¬isUser) →
      server isUser page = .httpStatus code →
      getAllReposGo server incF incA (fuel + 3) isUser tried page 0 repos =
        some repos)
    ∧ (∀ (server : Bool → Nat → PageResp) (incF incA : Bool)
      (fuel : Nat) (isUser : Bool) (page : Nat) (repos : List Repo),
      server isUser page = .netErr →
      gitleaksGo server incF incA (fuel + 1) isUser page repos = some repos)
    ∧ (∀ (server : Bool → Nat → PageResp) (incF incA : Bool)
      (fuel : Nat) (isUser : Bool) (page : Nat) (repos : List Repo)
      (code : Nat), ¬(¬isUser ∧ page = 1 ∧ code = 404) →
      server isUser page = .httpStatus code →
      gitleaksGo server incF incA (fuel + 1) isUser page repos = some repos) := by
  refine ⟨?_, ?_, ?_, ?_⟩
  · intro server incF incA fuel isUser tried page repos h
    unfold getAllReposGo
    rw [h]
    simp only [if_neg (by omega : ¬(0 + 1 ≥ 3))]
    unfold getAllReposGo
    rw [h]
    simp only [if_neg (by omega : ¬(1 + 1 ≥ 3))]
    unfold getAllReposGo
    rw [h]
    simp
  · intro server incF incA fuel isUser tried page repos code h403 h404 h
    by_cases h44 : code = 404 ∧ tried
    · unfold getAllReposGo
      rw [h]
      simp only [if_neg h403, if_neg h404, if_pos h44]
    · unfold getAllReposGo
      rw [h]
      simp only [if_neg h403, if_neg h404, if_neg h44,
        if_neg (by omega : ¬(0 + 1 ≥ 3))]
      unfold getAllReposGo
      rw [h]
      simp only [if_neg h403, if_neg h404, if_neg h44,
        if_neg (by omega : ¬(1 + 1 ≥ 3))]
      unfold getAllReposGo
      rw [h]
      simp only [if_neg h403, if_neg h404, if_neg h44,
        if_pos (by omega : 2 + 1 ≥ 3)]
  · intro server incF incA fuel isUser page repos h
    unfold gitleaksGo
    rw [h]
  · intro server incF incA fuel isUser page repos code hcond h
    simp only [gitleaksGo, h]
    rw [if_neg hcond]

/-- C9 witness: with one repository already accumulated, a persistent
network error or HTTP 500 on the next page makes both listers return
just that repository. -/
theorem C9_listing_returns_accumulated_witness :
    getAllReposGo downServer true true 3 false false 2 0 [rAcc] = some [rAcc]
    ∧ getAllReposGo err500Server true true 3 false false 2 0 [rAcc] =
        some [rAcc]
    ∧ gitleaksGo downServer true true 1 false 2 [rAcc] = some [rAcc]
    ∧ gitleaksGo err500Server true true 1 false 2 [rAcc] = some [rAcc] :=
  ⟨C9_listing_returns_accumulated.1 downServer true true 0 false false 2
      [rAcc] rfl,
   C9_listing_returns_accumulated.2.1 err500Server true true 0 false false
      2 [rAcc] 500 (by decide) (by decide) rfl,
   C9_listing_returns_accumulated.2.2.1 downServer true true 0 false 2
      [rAcc] rfl,
   C9_listing_returns_accumulated.2.2.2 err500Server true true 0 false 2
      [rAcc] 500 (by decide) rfl⟩

theorem exceptBind_ok {α β : Type} (a : α) (f : α → Except Unit β) :
    (Except.ok a >>= f : Except Unit β) = f a := rfl

theorem exceptBind_err {α β : Type} (f : α → Except Unit β) :
    (Except.error () >>= f : Except Unit β) = Except.error () := rfl

theorem exceptPure_eq {α : Type} (a : α) :
    (pure a : Except Unit α) = Except.ok a := rfl

theorem strOrFalsy_lower (v : J) (h : strOrFalsy v = true) :
    ∃ s, jLowerStr (pyOr v (J.js "")) = .ok s := by
  cases v with
  | null => exact ⟨_, rfl⟩
  | jb b =>
    cases b
    · exact ⟨_, rfl⟩
    · simp [strOrFalsy, truthy] at h
  | ji n =>
    have hn : n = 0 := by simpa [strOrFalsy, truthy] using h
    subst hn
    exact ⟨_, rfl⟩
  | jf q =>
    have hq : q = 0 := by simpa [strOrFalsy, truthy] using h
    subst hq
    exact ⟨asciiLower "", by simp [pyOr, truthy, jLowerStr]⟩
  | js str =>
    by_cases hs : str = ""
    · subst hs
      exact ⟨_, rfl⟩
    · refine ⟨asciiLower str, ?_⟩
      simp [pyOr, truthy, hs, jLowerStr]
  | ja xs =>
    have hx : xs = [] := by simpa [strOrFalsy, truthy] using h
    subst hx
    exact ⟨_, rfl⟩
  | jo kvs =>
    have hk : kvs = [] := by simpa [strOrFalsy, truthy] using h
    subst hk
    exact ⟨_, rfl⟩

theorem strOrFalsy_upper (v : J) (h : strOrFalsy v = true) :
    ∃ s, jUpperStr (pyOr v (J.js "")) = .ok s := by
  cases v with
  | null => exact ⟨_, rfl⟩
  | jb b =>
    cases b
    · exact ⟨_, rfl⟩
    · simp [strOrFalsy, truthy] at h
  | ji n =>
    have hn : n = 0 := by simpa [strOrFalsy, truthy] using h
    subst hn
    exact ⟨_, rfl⟩
  | jf q =>
    have hq : q = 0 := by simpa [strOrFalsy, truthy] using h
    subst hq
    exact ⟨asciiUpper "", by simp [pyOr, truthy, jUpperStr]⟩
  | js str =>
    by_cases hs : str = ""
    · subst hs
      exact ⟨_, rfl⟩
    · refine ⟨asciiUpper str, ?_⟩
      simp [pyOr, truthy, hs, jUpperStr]
  | ja xs =>
    have hx : xs = [] := by simpa [strOrFalsy, truthy] using h
    subst hx
    exact ⟨_, rfl⟩
  | jo kvs =>
    have hk : kvs = [] := by simpa [strOrFalsy, truthy] using h
    subst hk
    exact ⟨_, rfl⟩

theorem isNum_float (v : J) (h : isNum v = true) :
    ∃ q, pyFloat v = .ok q := by
  cases v with
  | jb b => exact ⟨_, rfl⟩
  | ji n => exact ⟨_, rfl⟩
  | jf q => exact ⟨_, rfl⟩
  | null => simp [isNum] at h
  | js s => simp [isNum] at h
  | ja xs => simp [isNum] at h
  | jo kvs => simp [isNum] at h

theorem grypeGate_none (kev : String → Bool) (epss : String → Rat) (cfg : J)
    (h : benignGrypeCfg cfg = true) :
    grypeGate kev epss cfg none = .ok [] := by
  cases cfg with
  | jo kvs =>
    have hstr : strOrFalsy (objGetD kvs "max_severity" J.null) = true := by
      simpa [benignGrypeCfg, isObj, objGet] using h
    obtain ⟨s, hs⟩ := strOrFalsy_lower _ hstr
    by_cases hn : isNum (objGetD kvs "max_epss" J.null)
    · obtain ⟨q, hq⟩ := isNum_float _ hn
      simp [objGetD, pyOr, truthy] at hs hq hn
      simp [grypeGate, jGetD, objGetD, jList, anyM, grypeFindSev, hs, hq, hn,
        exceptBind_ok, exceptBind_err, exceptPure_eq, pyOr, truthy,
        List.find?]
    · simp [objGetD, pyOr, truthy] at hs hn
      simp [grypeGate, jGetD, objGetD, jList, anyM, grypeFindSev, hs, hn,
        exceptBind_ok, exceptBind_err, exceptPure_eq, pyOr, truthy,
        List.find?]
  | null => simp [benignGrypeCfg, isObj] at h
  | jb b => simp [benignGrypeCfg, isObj] at h
  | ji n => simp [benignGrypeCfg, isObj] at h
  | jf q => simp [benignGrypeCfg, isObj] at h
  | js s => simp [benignGrypeCfg, isObj] at h
  | ja xs => simp [benignGrypeCfg, isObj] at h

theorem lookupCount_zeros (cs : List (String × Int))
    (h : ∀ p ∈ cs, p.2 = 0) (k : String) : lookupCount cs k = 0 := by
  unfold lookupCount
  rcases hf : cs.find? (fun p => p.1 = k) with _ | p
  · simp [hf]
  · simp [hf, h p (List.mem_of_find?_eq_some hf)]

theorem nonNegLimits_items (mc : J) (h : nonNegLimits mc = true) :
    ∃ mkvs, jItems (pyOr mc (J.jo [])) = .ok mkvs
      ∧ ∀ kv ∈ mkvs, ∀ lim, pyIntOpt kv.2 = some lim → 0 ≤ lim := by
  cases mc with
  | jo kvs =>
    refine ⟨kvs, ?_, ?_⟩
    · cases kvs <;> simp [pyOr, truthy, jItems]
    · intro kv hkv lim hlim
      have hall : ∀ a b, (a, b) ∈ kvs → (match pyIntOpt b with
          | none => true
          | some n => decide (0 ≤ n)) = true := by
        simpa [nonNegLimits, List.all_eq_true] using h
      have h2 := hall kv.1 kv.2 (by simpa using hkv)
      rw [hlim] at h2
      simpa using h2
  | null => exact ⟨[], rfl, by simp⟩
  | jb b =>
    cases b
    · exact ⟨[], rfl, by simp⟩
    · simp [nonNegLimits, truthy] at h
  | ji n =>
    have hn : n = 0 := by simpa [nonNegLimits, truthy] using h
    subst hn
    exact ⟨[], by simp [pyOr, truthy, jItems], by simp⟩
  | jf q =>
    have hq : q = 0 := by simpa [nonNegLimits, truthy] using h
    subst hq
    exact ⟨[], by simp [pyOr, truthy, jItems], by simp⟩
  | js str =>
    have hs : str = "" := by simpa [nonNegLimits, truthy] using h
    subst hs
    exact ⟨[], by simp [pyOr, truthy, jItems], by simp⟩
  | ja xs =>
    have hx : xs = [] := by simpa [nonNegLimits, truthy] using h
    subst hx
    exact ⟨[], by simp [pyOr, truthy, jItems], by simp⟩

theorem checkovGate_none (cfg : J) (h : benignCountCfg cfg = true) :
    checkovGate cfg none = .ok [] := by
  cases cfg with
  | jo kvs =>
    rw [benignCountCfg, Bool.and_eq_true, Bool.and_eq_true] at h
    obtain ⟨⟨-, hstr⟩, hlim⟩ := h
    rw [objGet] at hstr hlim
    obtain ⟨s, hs⟩ := strOrFalsy_upper _ hstr
    obtain ⟨mkvs, hitems, hlims⟩ := nonNegLimits_items _ hlim
    simp [objGetD, pyOr, truthy] at hs hitems
    simp [checkovGate, jGetD, objGetD, jList, anyM, exceptBind_ok,
      exceptBind_err, exceptPure_eq, pyOr, truthy, List.find?, hs, hitems,
      List.filterMap_eq_nil_iff]
    intro ka vb hkv
    rcases hpi : pyIntOpt vb with _ | lim
    · simp [hpi]
    · have hl := hlims (ka, vb) hkv lim hpi
      have h0 := lookupCount_zeros
        [("CRITICAL", (0 : Int)), ("HIGH", 0), ("MEDIUM", 0), ("LOW", 0),
          ("UNKNOWN", 0)] (by simp) (asciiUpper ka)
      simp [h0, hpi]
      omega
  | null => simp [benignCountCfg, isObj] at h
  | jb b => simp [benignCountCfg, isObj] at h
  | ji n => simp [benignCountCfg, isObj] at h
  | jf q => simp [benignCountCfg, isObj] at h
  | js s => simp [benignCountCfg, isObj] at h
  | ja xs => simp [benignCountCfg, isObj] at h

theorem objGetD_nil (k : String) (d : J) : objGetD [] k d = d := rfl

theorem secretsGate_none (cfg : J) (h : benignSecretsCfg cfg = true) :
    secretsGate cfg none = .ok [] := by
  cases cfg with
  | jo kvs =>
    have hmf : nonNegIntOpt (objGetD kvs "max_findings" J.null) = true := by
      simpa [benignSecretsCfg, isObj, objGet] using h
    rcases hv : objGetD kvs "max_findings" J.null with _ | b | n | q | str | xs | kvs2
    · simp [secretsGate, jGetD, hv]
    · cases b <;> simp [secretsGate, jGetD, hv]
    · rw [hv] at hmf
      have hn : 0 ≤ n := by simpa [nonNegIntOpt] using hmf
      simp [secretsGate, jGetD, hv]
      omega
    · simp [secretsGate, jGetD, hv]
    · simp [secretsGate, jGetD, hv]
    · simp [secretsGate, jGetD, hv]
    · simp [secretsGate, jGetD, hv]
  | null => simp [benignSecretsCfg, isObj] at h
  | jb b => simp [benignSecretsCfg, isObj] at h
  | ji n => simp [benignSecretsCfg, isObj] at h
  | jf q => simp [benignSecretsCfg, isObj] at h
  | js s => simp [benignSecretsCfg, isObj] at h
  | ja xs => simp [benignSecretsCfg, isObj] at h

theorem taintGate_none (cfg : J) (h : benignTaintCfg cfg = true) :
    taintGate cfg none = .ok [] := by
  cases cfg with
  | jo kvs =>
    have hmf : nonNegIntOpt (objGetD kvs "max_flows" J.null) = true := by
      simpa [benignTaintCfg, isObj, objGet] using h
    rcases hv : objGetD kvs "max_flows" J.null with _ | b | n | q | str | xs | kvs2
    · simp [taintGate, jGetD, hv, jLen, exceptBind_ok, exceptPure_eq,
        objGetD_nil, pyOr, truthy]
    · cases b <;>
        simp [taintGate, jGetD, hv, jLen, exceptBind_ok, exceptPure_eq,
          objGetD_nil, pyOr, truthy]
    · rw [hv] at hmf
      have hn : 0 ≤ n := by simpa [nonNegIntOpt] using hmf
      simp [taintGate, jGetD, hv, jLen, exceptBind_ok, exceptPure_eq,
        objGetD_nil, pyOr, truthy]
      omega
    · simp [taintGate, jGetD, hv, jLen, exceptBind_ok, exceptPure_eq,
        objGetD_nil, pyOr, truthy]
    · simp [taintGate, jGetD, hv, jLen, exceptBind_ok, exceptPure_eq,
        objGetD_nil, pyOr, truthy]
    · simp [taintGate, jGetD, hv, jLen, exceptBind_ok, exceptPure_eq,
        objGetD_nil, pyOr, truthy]
    · simp [taintGate, jGetD, hv, jLen, exceptBind_ok, exceptPure_eq,
        objGetD_nil, pyOr, truthy]
  | null => simp [benignTaintCfg, isObj] at h
  | jb b => simp [benignTaintCfg, isObj] at h
  | ji n => simp [benignTaintCfg, isObj] at h
  | jf q => simp [benignTaintCfg, isObj] at h
  | js s => simp [benignTaintCfg, isObj] at h
  | ja xs => simp [benignTaintCfg, isObj] at h

theorem semgrepGate_none (cfg : J) (h : benignCountCfg cfg = true) :
    semgrepGate cfg none = .ok [] := by
  cases cfg with
  | jo kvs =>
    rw [benignCountCfg, Bool.and_eq_true, Bool.and_eq_true] at h
    obtain ⟨⟨-, hstr⟩, hlim⟩ := h
    rw [objGet] at hstr hlim
    obtain ⟨s, hs⟩ := strOrFalsy_lower _ hstr
    obtain ⟨mkvs, hitems, hlims⟩ := nonNegLimits_items _ hlim
    simp [objGetD, pyOr, truthy] at hs hitems
    simp [semgrepGate, jGetD, objGetD, jList, anyM, exceptBind_ok,
      exceptBind_err, exceptPure_eq, pyOr, truthy, List.find?, hs, hitems,
      List.filterMap_eq_nil_iff]
    intro ka vb hkv
    rcases hpi : pyIntOpt vb with _ | lim
    · simp [hpi]
    · have hl := hlims (ka, vb) hkv lim hpi
      have h0 := lookupCount_zeros
        [("high", (0 : Int)), ("medium", 0), ("low", 0)] (by simp)
        (asciiLower ka)
      simp [h0, hpi]
      omega
  | null => simp [benignCountCfg, isObj] at h
  | jb b => simp [benignCountCfg, isObj] at h
  | ji n => simp [benignCountCfg, isObj] at h
  | jf q => simp [benignCountCfg, isObj] at h
  | js s => simp [benignCountCfg, isObj] at h
  | ja xs => simp [benignCountCfg, isObj] at h

theorem banditGate_none (cfg : J) (h : benignCountCfg cfg = true) :
    banditGate cfg none = .ok [] := by
  cases cfg with
  | jo kvs =>
    rw [benignCountCfg, Bool.and_eq_true, Bool.and_eq_true] at h
    obtain ⟨⟨-, hstr⟩, hlim⟩ := h
    rw [objGet] at hstr hlim
    obtain ⟨s, hs⟩ := strOrFalsy_upper _ hstr
    obtain ⟨mkvs, hitems, hlims⟩ := nonNegLimits_items _ hlim
    simp [objGetD, pyOr, truthy] at hs hitems
    simp [banditGate, jGetD, objGetD, jList, anyM, exceptBind_ok,
      exceptBind_err, exceptPure_eq, pyOr, truthy, List.find?, hs, hitems,
      List.filterMap_eq_nil_iff]
    intro ka vb hkv
    rcases hpi : pyIntOpt vb with _ | lim
    · simp [hpi]
    · have hl := hlims (ka, vb) hkv lim hpi
      have h0 := lookupCount_zeros
        [("HIGH", (0 : Int)), ("MEDIUM", 0), ("LOW", 0)] (by simp)
        (asciiUpper ka)
      simp [h0, hpi]
      omega
  | null => simp [benignCountCfg, isObj] at h
  | jb b => simp [benignCountCfg, isObj] at h
  | ji n => simp [benignCountCfg, isObj] at h
  | jf q => simp [benignCountCfg, isObj] at h
  | js s => simp [benignCountCfg, isObj] at h
  | ja xs => simp [benignCountCfg, isObj] at h

theorem trivyGate_none (cfg : J) (h : benignCountCfg cfg = true) :
    trivyGate cfg none = .ok [] := by
  cases cfg with
  | jo kvs =>
    rw [benignCountCfg, Bool.and_eq_true, Bool.and_eq_true] at h
    obtain ⟨⟨-, hstr⟩, hlim⟩ := h
    rw [objGet] at hstr hlim
    obtain ⟨s, hs⟩ := strOrFalsy_upper _ hstr
    obtain ⟨mkvs, hitems, hlims⟩ := nonNegLimits_items _ hlim
    simp [objGetD, pyOr, truthy] at hs hitems
    simp [trivyGate, jGetD, objGetD, jList, anyM, exceptBind_ok,
      exceptBind_err, exceptPure_eq, pyOr, truthy, List.find?, hs, hitems,
      List.filterMap_eq_nil_iff]
    intro ka vb hkv
    rcases hpi : pyIntOpt vb with _ | lim
    · simp [hpi]
    · have hl := hlims (ka, vb) hkv lim hpi
      have h0 := lookupCount_zeros
        [("CRITICAL", (0 : Int)), ("HIGH", 0), ("MEDIUM", 0), ("LOW", 0),
          ("UNKNOWN", 0)] (by simp) (asciiUpper ka)
      simp [h0, hpi]
      omega
  | null => simp [benignCountCfg, isObj] at h
  | jb b => simp [benignCountCfg, isObj] at h
  | ji n => simp [benignCountCfg, isObj] at h
  | jf q => simp [benignCountCfg, isObj] at h
  | js s => simp [benignCountCfg, isObj] at h
  | ja xs => simp [benignCountCfg, isObj] at h

theorem checkovDefaultGate_none : checkovDefaultGate none = .ok [] := rfl

theorem evaluatePolicy_ok_iff (kev : String → Bool) (epss : String → Rat)
    (policy : J) (fs : ToolFile → Option J) (p : Bool) (v : List String)
    (h : evaluatePolicy kev epss policy fs = .ok (p, v)) :
    p = true ↔ v = [] := by
  unfold evaluatePolicy at h
  rcases hvs : evalViolations kev epss policy fs with e | vs <;> rw [hvs] at h
  · simp [exceptBind_err] at h
  · rw [exceptBind_ok, exceptPure_eq] at h
    obtain ⟨rfl, rfl⟩ : vs.isEmpty = p ∧ vs = v := by
      constructor <;> injection h with h1 <;> injection h1
    constructor
    · intro hh
      exact List.isEmpty_iff.mp hh
    · intro hh
      simp [hh]

/-- C6 (counterexample): with every tool output file absent, the policy
`{gates: {secrets: {max_findings: -1}}}` still produces a violation
(`0 > -1`), so an absent file is not always violation-free; and with
the grype gate configured and a present grype file whose JSON is the
list `[1]`, evaluation raises (`AttributeError` on `gd.get`), so
evaluation is not exception-free. -/
theorem C6_policy_eval_counterexample :
    evaluatePolicy kev0 epss0 policyNegSecrets noFiles =
      .ok (false, ["secrets: 0 findings > -1"])
    ∧ evaluatePolicy kev0 epss0 policyGrypeKev grypeListFile = .error () := by
  constructor
  · rfl
  · rfl

/-- C6 (amended): whenever `evaluate_policy` returns, the pass flag is
true exactly when the violations list is empty; and an absent tool
output file contributes no violation for any gate whose configuration
is an object with a string (or falsy) `max_severity` and non-negative
count limits — without the non-negativity restriction the claim fails,
and a present file of non-object shape can raise (see the
counterexample). -/
theorem C6_policy_eval_missing_files :
    (∀ (kev : String → Bool) (epss : String → Rat) (policy : J)
      (fs : ToolFile → Option J) (p : Bool) (v : List String),
      evaluatePolicy kev epss policy fs = .ok (p, v) → (p = true ↔ v = []))
    ∧ (∀ (kev : String → Bool) (epss : String → Rat) (cfg : J),
        benignGrypeCfg cfg = true → grypeGate kev epss cfg none = .ok [])
    ∧ (∀ cfg : J, benignCountCfg cfg = true → checkovGate cfg none = .ok [])
    ∧ (∀ cfg : J, benignSecretsCfg cfg = true → secretsGate cfg none = .ok [])
    ∧ (∀ cfg : J, benignCountCfg cfg = true → semgrepGate cfg none = .ok [])
    ∧ (∀ cfg : J, benignTaintCfg cfg = true → taintGate cfg none = .ok [])
    ∧ (∀ cfg : J, benignCountCfg cfg = true → banditGate cfg none = .ok [])
    ∧ (∀ cfg : J, benignCountCfg cfg = true → trivyGate cfg none = .ok [])
    ∧ checkovDefaultGate none = .ok [] :=
  ⟨evaluatePolicy_ok_iff, grypeGate_none, checkovGate_none,
   secretsGate_none, semgrepGate_none, taintGate_none, banditGate_none,
   trivyGate_none, checkovDefaultGate_none⟩

/-- C6 witness: the amended theorem applied to concrete configurations
with every file absent. -/
theorem C6_policy_eval_missing_files_witness :
    (true = true ↔ ([] : List String) = [])
    ∧ grypeGate kev0 epss0 (J.jo [("require_no_kev", J.jb false)]) none =
        .ok []
    ∧ checkovGate (J.jo [("max_severity", J.js "high")]) none = .ok []
    ∧ secretsGate (J.jo [("max_findings", J.ji 2)]) none = .ok []
    ∧ semgrepGate (J.jo [("max_severity", J.js "high")]) none = .ok []
    ∧ taintGate (J.jo [("max_flows", J.ji 0)]) none = .ok []
    ∧ banditGate (J.jo [("max_severity", J.js "high")]) none = .ok []
    ∧ trivyGate (J.jo [("max_severity", J.js "high")]) none = .ok []
    ∧ checkovDefaultGate none = .ok [] :=
  ⟨C6_policy_eval_missing_files.1 kev0 epss0 J.null (fun _ => none) true []
      rfl,
   C6_policy_eval_missing_files.2.1 kev0 epss0 _ rfl,
   C6_policy_eval_missing_files.2.2.1 _ rfl,
   C6_policy_eval_missing_files.2.2.2.1 _ rfl,
   C6_policy_eval_missing_files.2.2.2.2.1 _ rfl,
   C6_policy_eval_missing_files.2.2.2.2.2.1 _ rfl,
   C6_policy_eval_missing_files.2.2.2.2.2.2.1 _ rfl,
   C6_policy_eval_missing_files.2.2.2.2.2.2.2.1 _ rfl,
   C6_policy_eval_missing_files.2.2.2.2.2.2.2.2⟩

/-- C10: in the grype `max_severity` gate, a match severity outside
`{critical, high, medium, low, negligible}` (e.g. `unknown`) ranks `-1`,
strictly below every valid threshold, so it never triggers a
`max_severity` violation. -/
theorem C10_grype_unknown_severity_no_violation
    (kev : String → Bool) (epss : String → Rat) (t sv : String)
    (ht : asciiLower t ∈ ["critical", "high", "medium", "low", "negligible"])
    (hsv : sv ≠ "")
    (hs : asciiLower sv ∉
      ["critical", "high", "medium", "low", "negligible"]) :
    grypeSevRank (asciiLower sv) = -1
    ∧ grypeSevRank (asciiLower sv) < grypeSevRank (asciiLower t)
    ∧ grypeGate kev epss (J.jo [("max_severity", J.js t)])
        (some (mkGrypeMatchFile sv)) = .ok [] := by
  have hne : ∀ u ∈ ["critical", "high", "medium", "low", "negligible"],
      asciiLower sv ≠ u := fun u hu hequ => hs (hequ ▸ hu)
  have hrank : grypeSevRank (asciiLower sv) = -1 := by
    simp [grypeSevRank, hne "critical" (by simp), hne "high" (by simp),
      hne "medium" (by simp), hne "low" (by simp),
      hne "negligible" (by simp)]
  have htne : t ≠ "" := by
    intro hteq
    rw [hteq] at ht
    exact absurd ht (by decide)
  have htrank : 0 ≤ grypeSevRank (asciiLower t) := by
    rcases (by simpa using ht : asciiLower t = "critical" ∨
        asciiLower t = "high" ∨ asciiLower t = "medium" ∨
        asciiLower t = "low" ∨ asciiLower t = "negligible") with
      h | h | h | h | h <;> rw [h] <;> decide
  refine ⟨hrank, by omega, ?_⟩
  simp [grypeGate, mkGrypeMatchFile, jGetD, objGetD, List.find?, pyOr,
    truthy, jList, anyM, enrichGrype, enrichList, enrichMatch, setAssoc,
    grypeFindSev, matchSevLower, jLowerStr, exceptBind_ok, exceptBind_err,
    exceptPure_eq, isNum, htne, hsv]
  intro _
  rw [hrank, if_neg (by omega : ¬(grypeSevRank (asciiLower t) ≤ -1))]
  rfl

/-- C10 witness: threshold `negligible` (the lowest valid one) and a
match severity `unknown`. -/
theorem C10_grype_unknown_severity_witness :
    grypeSevRank (asciiLower "unknown") = -1
    ∧ grypeSevRank (asciiLower "unknown") <
        grypeSevRank (asciiLower "negligible")
    ∧ grypeGate kev0 epss0 (J.jo [("max_severity", J.js "negligible")])
        (some (mkGrypeMatchFile "unknown")) = .ok [] :=
  C10_grype_unknown_severity_no_violation kev0 epss0 "negligible" "unknown"
    (by decide) (by decide) (by decide)

/-- C8 witness: reset 100, now 50. -/
theorem C8_rate_limit_wait_witness :
    (50 : Int) < 100
    ∧ (handleRateLimit (some 100) 50 = (100 - 50) + 5
      ∧ 0 ≤ handleRateLimit (some 100) 50
      ∧ handleRateLimit none 50 = 60) :=
  ⟨by decide, C8_rate_limit_wait 100 50 (by decide)⟩

end Auditgh

